import Mathlib

/-!
Verification development for the domain-checker repository.

The definitions below are a shallow embedding of the TypeScript sources:
  * src/services/domainCheckerService.ts  (validator, DoH resolver client,
    status classifier),
  * src/App.tsx                           (orchestrator, update batcher,
    sorting/toggling),
  * src/types.ts                          (data model).

JavaScript strings are modelled by Lean `String` (ASCII behaviour:
`toLowerCase`/`trim` are modelled on the ASCII fragment, which is the only
fragment the validators accept).  JavaScript numbers that hold DNS RCODEs
are modelled by `Int`; `undefined` fields are modelled by `Option`.
Code that can throw is modelled in the `Except String` monad, with
`try/catch` as an explicit handler, so "never throws" is a real statement.
-/

namespace DomainChecker

/-! ### JavaScript string primitives used by the sources -/

/-- JS `String.prototype.includes(sub)` via an explicit scan. -/
def listHasSub (sub : List Char) : List Char → Bool
  | [] => List.isPrefixOf sub []
  | c :: cs => List.isPrefixOf sub (c :: cs) || listHasSub sub cs

def jsIncludes (s sub : String) : Bool := listHasSub sub.data s.data

/-- JS `String.prototype.startsWith(p)`. -/
def jsStartsWith (s p : String) : Bool := List.isPrefixOf p.data s.data

/-- JS `String.prototype.endsWith(p)`. -/
def jsEndsWith (s p : String) : Bool := List.isPrefixOf p.data.reverse s.data.reverse

/-- JS `String.prototype.indexOf(character)`: first index or `-1`. -/
def jsIndexOfChar (s : String) (c : Char) : Int :=
  match s.data.findIdx? (fun x => x = c) with
  | some i => (i : Int)
  | none => -1

/-- JS `s.substring(0, e)` (negative `e` clamps to 0). -/
def jsSubstringZeroTo (s : String) (e : Int) : String :=
  if e ≤ 0 then "" else ⟨s.data.take e.toNat⟩

/-- ASCII lower-casing, as `String.prototype.toLowerCase` behaves on the
ASCII fragment relevant to the validators. -/
def jsToLower (s : String) : String := ⟨s.data.map Char.toLower⟩

/-- The whitespace class of JS `trim` (space, tab, newline, carriage
return, form feed, vertical tab), via character codes. -/
def jsIsWhitespace (c : Char) : Bool :=
  c.toNat = 32 || c.toNat = 9 || c.toNat = 10 || c.toNat = 13 ||
    c.toNat = 12 || c.toNat = 11

/-- JS `String.prototype.trim` (ASCII whitespace). -/
def jsTrim (s : String) : String :=
  ⟨(((s.data.dropWhile jsIsWhitespace).reverse).dropWhile jsIsWhitespace).reverse⟩

/-- JS `s.split(sep)` for a one-character separator: structural over the
character list (so that it evaluates by kernel reduction). -/
def splitChars (sep : Char) : List Char → List (List Char)
  | [] => [[]]
  | c :: cs =>
    let rest := splitChars sep cs
    if c = sep then [] :: rest
    else
      match rest with
      | [] => [[c]]
      | r :: rs => (c :: r) :: rs

def jsSplit (s : String) (sep : Char) : List String :=
  (splitChars sep s.data).map (fun l => ⟨l⟩)

/-- Truthiness of an optional JS string (`undefined` and `""` are falsy). -/
def jsTruthyStr : Option String → Bool
  | none => false
  | some s => s ≠ ""

/-! ### Data model (src/types.ts) -/

inductive DomainStatus where
  | CHECKING
  | AVAILABLE
  | TAKEN
  | INVALID
  | IDLE
deriving DecidableEq, Repr

structure DomainCheckOutcome where
  status : DomainStatus
  reason : Option String
deriving DecidableEq, Repr

structure ProcessedTldResult where
  tld : String
  status : DomainStatus
  reason : Option String
  /-- Opaque unique id; the source uses `cell-${Date.now()}-${random}`,
  modelled by a per-run numeric index. -/
  id : Nat
deriving DecidableEq, Repr

structure ProcessedBaseNameResult where
  baseName : String
  tldResults : List ProcessedTldResult
deriving DecidableEq, Repr

/-! ### Domain validator (src/services/domainCheckerService.ts, lines 5-40) -/

structure ValidationResult where
  valid : Bool
  reason : Option String
deriving DecidableEq, Repr

def isAllDigits (s : String) : Bool := s.length > 0 && s.data.all Char.isDigit

def isValidDomainFormat (domain : String) : ValidationResult :=
  if domain = "" then
    { valid := false, reason := some "Domain must be a string." }
  else
    let normalizedDomain := jsTrim (jsToLower domain)
    if normalizedDomain.length < 3 || normalizedDomain.length > 253 then
      { valid := false, reason := some "Domain length must be between 3 and 253 characters." }
    else if !(jsIncludes normalizedDomain ".") || jsStartsWith normalizedDomain "." ||
        jsEndsWith normalizedDomain "." then
      { valid := false,
        reason := some "Domain must contain at least one dot, not at the start or end." }
    else if normalizedDomain.data.any (fun c =>
        !(c.isAlpha || c.isDigit || c = '.' || c = '-')) then
      { valid := false,
        reason := some "Domain contains invalid characters. Only alphanumeric, dots, and hyphens allowed." }
    else if jsIncludes normalizedDomain ".." then
      { valid := false, reason := some "Domain cannot contain consecutive dots." }
    else
      let labels := jsSplit normalizedDomain (Char.ofNat 46)
      if labels.any (fun label => label.length = 0 || label.length > 63) then
        { valid := false,
          reason := some "Each part of the domain (label) must be between 1 and 63 characters." }
      else if labels.any (fun label => jsStartsWith label "-" || jsEndsWith label "-") then
        { valid := false, reason := some "Labels cannot start or end with a hyphen." }
      else
        let tld := (labels.getLast?).getD ""
        if isAllDigits tld && tld.length > 0 then
          { valid := false,
            reason := some "Top-level domain (TLD) appears invalid (e.g., all numeric)." }
        else if tld.length < 2 then
          { valid := false,
            reason := some "Top-level domain (TLD) must be at least 2 characters long." }
        else
          { valid := true, reason := none }

/-! ### Resolver client (src/services/domainCheckerService.ts, lines 42-100) -/

inductive RecordType where
  | A
  | NS
deriving DecidableEq, Repr

def RecordType.str : RecordType → String
  | .A => "A"
  | .NS => "NS"

/-- `encodeURIComponent`: percent-encodes every character outside the
unreserved set, using upper-case hex of the UTF-8 bytes. -/
def utf8ByteList (c : Char) : List Nat :=
  let n := c.toNat
  if n < 0x80 then [n]
  else if n < 0x800 then [0xC0 + n / 0x40, 0x80 + n % 0x40]
  else if n < 0x10000 then
    [0xE0 + n / 0x1000, 0x80 + (n / 0x40) % 0x40, 0x80 + n % 0x40]
  else
    [0xF0 + n / 0x40000, 0x80 + (n / 0x1000) % 0x40, 0x80 + (n / 0x40) % 0x40, 0x80 + n % 0x40]

def hexDigitChar (n : Nat) : Char :=
  if n < 10 then Char.ofNat (48 + n) else Char.ofNat (55 + n)

def uriUnreserved (c : Char) : Bool :=
  c.isAlpha || c.isDigit || c = '-' || c = '_' || c = '.' || c = '!' || c = '~' ||
    c = '*' || c.toNat = 39 || c = '(' || c = ')'

def encodeURIComponent (s : String) : String :=
  ⟨s.data.foldr (fun c acc =>
    if uriUnreserved c then c :: acc
    else ((utf8ByteList c).foldr
      (fun b bacc => '%' :: hexDigitChar (b / 16) :: hexDigitChar (b % 16) :: bacc) acc)) []⟩

structure DohProvider where
  name : String
  urlPattern : String → RecordType → String

def providers : List DohProvider :=
  [ { name := "Cloudflare",
      urlPattern := fun domain recordType =>
        "https://cloudflare-dns.com/dns-query?name=" ++ encodeURIComponent domain ++
          "&type=" ++ recordType.str },
    { name := "Google",
      urlPattern := fun domain recordType =>
        "https://dns.google/resolve?name=" ++ encodeURIComponent domain ++
          "&type=" ++ recordType.str } ]

/-- The JSON body of a DoH response: the `Status` RCODE field and the
`Answer` array (contents of answers are unused; only the length matters). -/
structure DnsJson where
  Status : Option Int
  Answer : Option (List String)
deriving DecidableEq, Repr

/-- Outcome of `response.json()`: it can reject (malformed body), or yield
a value; `none` models the JSON value `null` (reading `.Status` on it throws). -/
inductive JsonOutcome where
  | throws (msg : String)
  | value (v : Option DnsJson)
deriving Repr

/-- Behaviour of one `fetch(url)` call: it can reject (network failure),
or resolve to a response with `ok`, `status`, `statusText` and a body. -/
inductive FetchOutcome where
  | throws (msg : String)
  | response (ok : Bool) (status : Nat) (statusText : String) (json : JsonOutcome)
deriving Repr

/-- The environment: what the network does for each URL. -/
def QueryEnv := String → FetchOutcome

structure DohQueryResult where
  providerName : String
  recordType : RecordType
  dnsStatus : Option Int
  data : Option DnsJson
  error : Option String
deriving DecidableEq, Repr

/-- The body of `makeDohQuery` up to (not including) its `catch`: every
JS operation that can throw (`await fetch`, `await response.json()`,
member access on `null`) is an `Except.error`. -/
def makeDohQueryBody (fetched : FetchOutcome) (providerName : String)
    (recordType : RecordType) : Except String DohQueryResult := do
  match fetched with
  | .throws msg => Except.error msg
  | .response ok status statusText json =>
    match json with
    | .throws msg => Except.error msg
    | .value responseData =>
      if !ok then
        -- `responseData?.Status` is null-safe.
        pure { providerName := providerName, recordType := recordType,
               dnsStatus := (responseData.bind (fun v => v.Status)),
               data := none,
               error := some ("HTTP error " ++ toString status ++ " " ++ statusText) }
      else
        -- `responseData.Status` throws a TypeError when the JSON value is null.
        match responseData with
        | none => Except.error "TypeError: Cannot read properties of null"
        | some v =>
          pure { providerName := providerName, recordType := recordType,
                 dnsStatus := v.Status, data := some v, error := none }

/-- `makeDohQuery`: the body wrapped in its `catch`, which converts any
thrown error into a result with the `error` field set. -/
def makeDohQuery (env : QueryEnv) (provider : DohProvider) (domain : String)
    (recordType : RecordType) : DohQueryResult :=
  match makeDohQueryBody (env (provider.urlPattern domain recordType))
      provider.name recordType with
  | .ok r => r
  | .error msg =>
    { providerName := provider.name, recordType := recordType,
      dnsStatus := none, data := none, error := some msg }

/-! ### Status classifier (src/services/domainCheckerService.ts, lines 102-145) -/

/-- The accumulator of the `results.forEach` loop in `checkDomain`. -/
structure ClassifyAcc where
  takenReasons : List String
  allQueriesReportNxDomain : Bool
  allQueryDetails : List String
deriving DecidableEq, Repr

def answerLen (res : DohQueryResult) : Nat :=
  ((res.data.bind (fun v => v.Answer)).map List.length).getD 0

def detailPrefix (res : DohQueryResult) : String :=
  res.providerName ++ " " ++ res.recordType.str ++ "-query"

def classifyStep (acc : ClassifyAcc) (res : DohQueryResult) : ClassifyAcc :=
  if res.dnsStatus = some 0 then
    { acc with
      takenReasons := acc.takenReasons ++
        [detailPrefix res ++ ": NOERROR" ++
          (if answerLen res > 0 then " (has records)"
           else " (no specific records, e.g., parked)")],
      allQueriesReportNxDomain := false }
  else if res.dnsStatus = some 3 then
    { acc with allQueryDetails := acc.allQueryDetails ++ [detailPrefix res ++ ": NXDOMAIN"] }
  else
    { acc with
      allQueriesReportNxDomain := false,
      allQueryDetails := acc.allQueryDetails ++
        [detailPrefix res ++ ": " ++
          (if jsTruthyStr res.error then "Error (" ++ res.error.getD "" ++ ")"
           else "Status " ++ (match res.dnsStatus with
             | none => "Unknown"
             | some n => toString n))] }

def classifyResults (results : List DohQueryResult) : DomainCheckOutcome :=
  let acc := results.foldl classifyStep ⟨[], true, []⟩
  if acc.takenReasons.length > 0 then
    { status := .TAKEN,
      reason := some ("Taken because: " ++ String.intercalate "; " acc.takenReasons ++
        ". Other details: " ++ String.intercalate "; "
          (acc.allQueryDetails.filter (fun d =>
            !(acc.takenReasons.any (fun tr =>
              jsStartsWith d (jsSubstringZeroTo tr (jsIndexOfChar tr ':'))))))) }
  else if acc.allQueriesReportNxDomain then
    { status := .AVAILABLE,
      reason := some ("All providers reported NXDOMAIN for A & NS records. Details: " ++
        String.intercalate "; " acc.allQueryDetails) }
  else
    { status := .TAKEN,
      reason := some ("Availability ambiguous, assuming taken. Details: " ++
        String.intercalate "; " acc.allQueryDetails) }

/-- The list of the four settled DoH query results, in dispatch order
(for each provider: the A query then the NS query). -/
def dohResults (env : QueryEnv) (domain : String) : List DohQueryResult :=
  providers.foldl (fun acc provider =>
    acc ++ [makeDohQuery env provider domain .A, makeDohQuery env provider domain .NS]) []

/-- `checkDomain` (with its query results supplied by the environment). -/
def checkDomain (env : QueryEnv) (domain : String) : DomainCheckOutcome :=
  let validation := isValidDomainFormat domain
  if !validation.valid then
    { status := .INVALID, reason := validation.reason }
  else
    classifyResults (dohResults env domain)

/-- `checkDomain` instrumented with the number of DoH queries it issues
(one per `makeDohQuery` call pushed into `queryPromises`). -/
def checkDomainTraced (env : QueryEnv) (domain : String) : DomainCheckOutcome × Nat :=
  let validation := isValidDomainFormat domain
  if !validation.valid then
    ({ status := .INVALID, reason := validation.reason }, 0)
  else
    (classifyResults (dohResults env domain), (dohResults env domain).length)

/-- `checkDomain` as a program in the exception monad: the async function
body with every possibly-throwing operation made explicit.  There is no
`try/catch` at this level in the source; the only handlers are the one
inside `makeDohQuery` (already applied in `dohResults`) and the
orchestrator's `.catch`. -/
def checkDomainE (env : QueryEnv) (domain : String) :
    Except String DomainCheckOutcome := do
  let validation := isValidDomainFormat domain
  if !validation.valid then
    pure { status := .INVALID, reason := validation.reason }
  else
    pure (classifyResults (dohResults env domain))

/-! ### Input parsing and validation (src/App.tsx, lines 148-207) -/

/-- The delimiter class `[, \t]` of the base-name normalizer, via
character codes (comma, space, tab). -/
def isDelimChar (c : Char) : Bool :=
  c.toNat = 44 || c.toNat = 32 || c.toNat = 9

/-- JS `replace(/[, \t]+/g, '\n')`: each maximal run of delimiters becomes
one newline.  `inRun` records whether the previous character was a delimiter. -/
def normChars (inRun : Bool) : List Char → List Char
  | [] => []
  | c :: cs =>
    if isDelimChar c then
      if inRun then normChars true cs else '\n' :: normChars true cs
    else c :: normChars false cs

def normalizeDelims (s : String) : String := ⟨normChars false s.data⟩

/-- JS `filter((value, index, self) => self.indexOf(value) === index)`:
keep an element exactly when it has not occurred earlier. -/
def dedupSeen (seen : List String) : List String → List String
  | [] => []
  | x :: xs =>
    if seen.contains x then dedupSeen seen xs
    else x :: dedupSeen (seen ++ [x]) xs

def dedupKeepFirst (l : List String) : List String := dedupSeen [] l

def parseBaseNames (input : String) : List String :=
  dedupKeepFirst
    ((((jsSplit (normalizeDelims input) (Char.ofNat 10)).map (fun d => jsToLower (jsTrim d))).filter
      (fun d => d.length > 0)))

def parseTlds (input : String) : List String :=
  dedupKeepFirst
    (((jsSplit input (Char.ofNat 44)).map (fun t => jsToLower (jsTrim t))).filter
      (fun t => t.length > 0))

def isAlnumCI (c : Char) : Bool := c.isAlpha || c.isDigit

/-- The regex `^[a-z0-9]([a-z0-9-]{0,61}[a-z0-9])?$` (case-insensitive),
with `midOk` the middle character class. -/
def matchesLabelGrammar (midOk : Char → Bool) (s : String) : Bool :=
  match s.data with
  | [] => false
  | c0 :: rest =>
    match rest.getLast? with
    | none => isAlnumCI c0
    | some lastC =>
      isAlnumCI c0 && isAlnumCI lastC && rest.dropLast.all midOk &&
        rest.dropLast.length ≤ 61

def isValidBaseName (name : String) : Bool :=
  if jsIncludes name "." then false
  else if jsStartsWith name "-" || jsEndsWith name "-" then false
  else matchesLabelGrammar (fun c => isAlnumCI c || c = '-') name

def isValidTld (tld : String) : Bool :=
  if jsStartsWith tld "." || jsEndsWith tld "." then false
  else if jsIncludes tld ".." then false
  else if tld.length < 2 then false
  else
    matchesLabelGrammar (fun c => isAlnumCI c || c = '.' || c = '-') tld &&
      !isAllDigits (((jsSplit tld (Char.ofNat 46)).getLast?).getD "")

/-! ### Update batcher (src/App.tsx, lines 21-26 and 78-112) -/

structure PendingCellUpdate where
  baseName : String
  tld : String
  status : DomainStatus
  reason : Option String
deriving DecidableEq, Repr

structure CellPatch where
  status : DomainStatus
  reason : Option String
deriving DecidableEq, Repr

/-- One iteration of the `forEach` loop of `flushPendingCellUpdates`
building `updatesByBaseName`: create the row record if absent, then
assign the cell entry (later assignments overwrite earlier ones). -/
def updRecordStep (rec : String → Option (String → Option CellPatch))
    (u : PendingCellUpdate) : String → Option (String → Option CellPatch) :=
  let inner := (rec u.baseName).getD (fun _ => none)
  fun b => if b = u.baseName then
      some (fun t => if t = u.tld then some ⟨u.status, u.reason⟩ else inner t)
    else rec b

/-- The nested record `updatesByBaseName` built by the `forEach` loop of
`flushPendingCellUpdates`. -/
def buildUpdatesRecord (updates : List PendingCellUpdate) :
    String → Option (String → Option CellPatch) :=
  updates.foldl updRecordStep (fun _ => none)

/-- Looking a cell up in the nested record. -/
def recLookup (rec : String → Option (String → Option CellPatch))
    (b t : String) : Option CellPatch :=
  match rec b with
  | none => none
  | some inner => inner t

def applyRowUpdates (rec : String → Option (String → Option CellPatch))
    (row : ProcessedBaseNameResult) : ProcessedBaseNameResult :=
  match rec row.baseName with
  | none => row
  | some rowUpdates =>
    let newTldResults := row.tldResults.map (fun cell =>
      match rowUpdates cell.tld with
      | some cellUpdate => { cell with status := cellUpdate.status, reason := cellUpdate.reason }
      | none => cell)
    let hasChanged := row.tldResults.any (fun cell => (rowUpdates cell.tld).isSome)
    if hasChanged then { row with tldResults := newTldResults } else row

/-- The bulk grid mutation performed by one flush over a drained buffer. -/
def applyUpdates (updates : List PendingCellUpdate)
    (grid : List ProcessedBaseNameResult) : List ProcessedBaseNameResult :=
  grid.map (applyRowUpdates (buildUpdatesRecord updates))

/-- Specification-side description of "the last buffered update for a
cell": used to state that the record built by the source is last-write-wins. -/
def lastUpdateFor (updates : List PendingCellUpdate) (b t : String) :
    Option PendingCellUpdate :=
  (updates.filter (fun u => u.baseName = b && u.tld = t)).getLast?

/-! ### Sorting (src/App.tsx, lines 28-34 and 339-366) -/

def statusOrder : DomainStatus → Nat
  | .AVAILABLE => 0
  | .CHECKING => 1
  | .IDLE => 2
  | .INVALID => 3
  | .TAKEN => 4

inductive SortDirection where
  | ascending
  | descending
deriving DecidableEq, Repr

structure SortConfig where
  key : String
  direction : SortDirection
deriving DecidableEq, Repr

def handleSortRequest (key : String) (sortConfig : Option SortConfig) : Option SortConfig :=
  let direction : SortDirection :=
    match sortConfig with
    | some c => if c.key = key && c.direction = .ascending then .descending else .ascending
    | none => .ascending
  some { key := key, direction := direction }

/-- The sort key of a row for a TLD column: the status rank of the cell
for that TLD, or `5` for a missing cell (modelling `Infinity`, which lies
strictly above every `statusOrder` value; ties, including the
`Infinity - Infinity = NaN` comparator case, behave identically). -/
def rowRank (key : String) (row : ProcessedBaseNameResult) : Nat :=
  match row.tldResults.find? (fun r => r.tld = key) with
  | some r => statusOrder r.status
  | none => 5

/-- The comparator `statusOrder[a] - statusOrder[b]` induces this total
preorder on rows. -/
def rankRel (key : String) (a b : ProcessedBaseNameResult) : Prop :=
  rowRank key a ≤ rowRank key b

instance (key : String) : DecidableRel (rankRel key) :=
  fun a b => inferInstanceAs (Decidable (rowRank key a ≤ rowRank key b))

def nameRel (a b : ProcessedBaseNameResult) : Prop := a.baseName ≤ b.baseName

instance : DecidableRel nameRel :=
  fun a b => inferInstanceAs (Decidable (a.baseName ≤ b.baseName))

/-- `sortedAndFilteredResults` restricted to its sorting step (the input
list plays the role of `filteredResults`).  ES2019 `Array.prototype.sort`
is stable, so it is modelled by the stable `List.insertionSort`. -/
def sortedResults (sortConfig : Option SortConfig)
    (rows : List ProcessedBaseNameResult) : List ProcessedBaseNameResult :=
  match sortConfig with
  | none => rows
  | some c =>
    let sorted :=
      if c.key = "baseName" then
        List.insertionSort nameRel rows
      else
        List.insertionSort (rankRel c.key) rows
    if c.direction = .descending then sorted.reverse else sorted

/-! ### Check orchestrator (src/App.tsx, lines 40-288)

The component's refs and state hooks become the fields of `AppState`;
the asynchronous behaviour becomes a small-step transition system.  An
in-flight check is represented by the `PendingCellUpdate` its `.then`
callback will push when it settles (the `.catch` callback is dead code,
see the C10 theorem); crucially, in-flight checks are *not* tagged with
the run that started them, exactly as the promises in the source close
over the shared refs of the component. -/

structure AppState where
  gridResults : List ProcessedBaseNameResult
  parsedTldsForTable : List String
  isLoading : Bool
  errorMessage : Option String
  /-- `startTimeRef` (Date.now() at submission). -/
  startTime : Option Nat
  /-- `timeTaken`, kept as elapsed milliseconds (the source formats it
  as a seconds string). -/
  elapsedMillis : Option Nat
  sortConfig : Option SortConfig
  /-- `pendingCellUpdatesRef`. -/
  pendingUpdates : List PendingCellUpdate
  /-- Whether `flushIntervalRef` holds a live interval. -/
  flushTimer : Bool
  /-- `completedChecksRef`. -/
  completedChecks : Nat
  /-- `totalChecksRef`. -/
  totalChecks : Nat
  /-- Unsettled checks, from any run. -/
  inflight : List PendingCellUpdate
deriving Repr

def initialState : AppState :=
  { gridResults := [], parsedTldsForTable := [], isLoading := false,
    errorMessage := none, startTime := none, elapsedMillis := none,
    sortConfig := none, pendingUpdates := [], flushTimer := false,
    completedChecks := 0, totalChecks := 0, inflight := [] }

/-- `flushPendingCellUpdates` as a state transformer: early return on an
empty buffer, otherwise atomically drain it and apply the bulk mutation. -/
def flushState (s : AppState) : AppState :=
  if s.pendingUpdates.length = 0 then s
  else
    { s with pendingUpdates := [],
             gridResults := applyUpdates s.pendingUpdates s.gridResults }

/-- `clearAsyncOperations`. -/
def clearAsyncOperations (s : AppState) : AppState :=
  { s with flushTimer := false, pendingUpdates := [],
           completedChecks := 0, totalChecks := 0 }

/-- `handleClear` (the pieces of component state that this model tracks;
input fields and filters are presentation state outside the model). -/
def handleClear (s : AppState) : AppState :=
  clearAsyncOperations
    { s with gridResults := [], parsedTldsForTable := [], isLoading := false,
             errorMessage := none, elapsedMillis := none, startTime := none,
             sortConfig := none }

structure Combination where
  baseName : String
  tld : String
  fullDomain : String
deriving DecidableEq, Repr

/-- The `domainsToProcess` cross product, in source order (outer loop over
base names, inner loop over TLDs). -/
def crossProduct (uniqueBaseNames uniqueTlds : List String) : List Combination :=
  uniqueBaseNames.foldl (fun acc base =>
    acc ++ uniqueTlds.map (fun tld =>
      { baseName := base, tld := tld, fullDomain := base ++ "." ++ tld })) []

/-- The `initialGridResults` grid: one row per base name, every cell in
`Checking` status; ids are per-run numeric indices (see
`ProcessedTldResult.id`). -/
def initialGrid (uniqueBaseNames uniqueTlds : List String) :
    List ProcessedBaseNameResult :=
  (uniqueBaseNames.enum).map (fun p =>
    { baseName := p.2,
      tldResults := (uniqueTlds.enum).map (fun q =>
        { tld := q.2, status := .CHECKING, reason := none,
          id := p.1 * uniqueTlds.length + q.1 }) })

/-- The update the `.then` branch of a dispatched check pushes when it
settles; by the C10 theorem `checkDomainE` never lands in the `.catch`
branch, which would push `{Invalid, reason: 'Error during check'}`. -/
def taskUpdate (env : QueryEnv) (item : Combination) : PendingCellUpdate :=
  match checkDomainE env item.fullDomain with
  | .ok checkOutcome =>
    { baseName := item.baseName, tld := item.tld,
      status := checkOutcome.status, reason := checkOutcome.reason }
  | .error _ =>
    { baseName := item.baseName, tld := item.tld,
      status := .INVALID, reason := some "Error during check" }

/-- `handleSubmit`, step by step in source order. -/
def handleSubmit (baseNamesInput tldsInput : String) (env : QueryEnv)
    (now : Nat) (prev : AppState) : AppState :=
  let s0 := clearAsyncOperations
    { prev with errorMessage := none, gridResults := [],
                parsedTldsForTable := [], elapsedMillis := none,
                startTime := none, sortConfig := none }
  let uniqueBaseNames := parseBaseNames baseNamesInput
  let uniqueTlds := parseTlds tldsInput
  if uniqueBaseNames.length = 0 then
    { s0 with errorMessage := some "Please enter at least one base name." }
  else if uniqueTlds.length = 0 then
    { s0 with errorMessage := some "Please enter at least one TLD." }
  else
    let invalidBaseNames := uniqueBaseNames.filter (fun name => !isValidBaseName name)
    if invalidBaseNames.length > 0 then
      { s0 with errorMessage := some ("Invalid base name(s): " ++
          String.intercalate ", " invalidBaseNames ++
          ". Base names cannot contain dots and must be valid DNS labels.") }
    else
      let invalidTlds := uniqueTlds.filter (fun tld => !isValidTld tld)
      if invalidTlds.length > 0 then
        { s0 with errorMessage := some ("Invalid TLD(s): " ++
            String.intercalate ", " invalidTlds ++
            ". TLDs must be valid (e.g., com, co.uk).") }
      else
        let s1 := { s0 with isLoading := true, parsedTldsForTable := uniqueTlds,
                            startTime := some now,
                            gridResults := initialGrid uniqueBaseNames uniqueTlds }
        let domainsToProcess := crossProduct uniqueBaseNames uniqueTlds
        let s2 := { s1 with totalChecks := domainsToProcess.length, completedChecks := 0 }
        if s2.totalChecks > 50000 then
          clearAsyncOperations
            { s2 with errorMessage := some "Generated more than 50,000 domain combinations. Please reduce base names or TLDs.",
                      isLoading := false, gridResults := [],
                      parsedTldsForTable := [], startTime := none }
        else if s2.totalChecks = 0 then
          clearAsyncOperations
            { s2 with errorMessage := some "No valid domain combinations to check.",
                      isLoading := false, startTime := none }
        else
          { s2 with flushTimer := true,
                    inflight := s2.inflight ++
                      domainsToProcess.map (taskUpdate env) }

/-- Settlement of the in-flight check at position `i` (interleaving order
is chosen by the scheduler): the `.then` push followed by the `.finally`
progress/completion logic. -/
def stepSettle (i : Nat) (now : Nat) (s : AppState) : AppState :=
  match s.inflight[i]? with
  | none => s
  | some task =>
    let s1 := { s with inflight := s.inflight.eraseIdx i,
                       pendingUpdates := s.pendingUpdates ++ [task],
                       completedChecks := s.completedChecks + 1 }
    if s1.completedChecks = s1.totalChecks then
      let s2 := flushState { s1 with flushTimer := false }
      { s2 with isLoading := false,
                elapsedMillis := match s2.startTime with
                  | some t0 => some (now - t0)
                  | none => s2.elapsedMillis }
    else s1

/-- One firing of the periodic flush interval (only a live interval fires). -/
def stepTick (s : AppState) : AppState :=
  if s.flushTimer then flushState s else s

inductive Ev where
  | submit (baseNamesInput tldsInput : String) (env : QueryEnv) (now : Nat)
  | settle (i : Nat) (now : Nat)
  | tick
  | clear

def step (s : AppState) : Ev → AppState
  | .submit b t env now => handleSubmit b t env now s
  | .settle i now => stepSettle i now s
  | .tick => stepTick s
  | .clear => handleClear s

def runEvents (s : AppState) (evs : List Ev) : AppState := evs.foldl step s

/-- Scheduler events that can occur between a submission and the next
user action: settlements of in-flight checks and flush-timer ticks. -/
def Ev.isSchedulerEvent : Ev → Bool
  | .settle _ _ => true
  | .tick => true
  | _ => false

/-! ## Helper lemmas about the classifier fold -/

lemma classifyStep_takenReasons_ne_nil (acc : ClassifyAcc) (res : DohQueryResult)
    (h : acc.takenReasons ≠ []) : (classifyStep acc res).takenReasons ≠ [] := by
  unfold classifyStep
  split
  · simp
  · split <;> simpa

lemma foldl_takenReasons_ne_nil (l : List DohQueryResult) (acc : ClassifyAcc)
    (h : acc.takenReasons ≠ []) :
    (l.foldl classifyStep acc).takenReasons ≠ [] := by
  induction l generalizing acc with
  | nil => simpa
  | cons r rs ih => exact ih _ (classifyStep_takenReasons_ne_nil acc r h)

lemma classifyStep_status0_takenReasons (acc : ClassifyAcc) (res : DohQueryResult)
    (h : res.dnsStatus = some 0) : (classifyStep acc res).takenReasons ≠ [] := by
  unfold classifyStep
  rw [if_pos h]
  simp

lemma foldl_mem_status0_takenReasons (l : List DohQueryResult) (acc : ClassifyAcc)
    (r : DohQueryResult) (hmem : r ∈ l) (h0 : r.dnsStatus = some 0) :
    (l.foldl classifyStep acc).takenReasons ≠ [] := by
  induction l generalizing acc with
  | nil => cases hmem
  | cons x xs ih =>
    rcases List.mem_cons.mp hmem with heq | hmem2
    · subst heq
      exact foldl_takenReasons_ne_nil xs _ (classifyStep_status0_takenReasons acc r h0)
    · exact ih _ hmem2

lemma classifyStep_no0_takenReasons (acc : ClassifyAcc) (res : DohQueryResult)
    (h : res.dnsStatus ≠ some 0) :
    (classifyStep acc res).takenReasons = acc.takenReasons := by
  unfold classifyStep
  rw [if_neg h]
  split <;> rfl

lemma foldl_no0_takenReasons (l : List DohQueryResult) (acc : ClassifyAcc)
    (h : ∀ r ∈ l, r.dnsStatus ≠ some 0) :
    (l.foldl classifyStep acc).takenReasons = acc.takenReasons := by
  induction l generalizing acc with
  | nil => rfl
  | cons x xs ih =>
    rw [List.foldl_cons, ih _ (fun r hr => h r (List.mem_cons_of_mem x hr)),
      classifyStep_no0_takenReasons acc x (h x (List.mem_cons_self x xs))]

lemma classifyStep_all3_allNx (acc : ClassifyAcc) (res : DohQueryResult)
    (h : res.dnsStatus = some 3) :
    (classifyStep acc res).allQueriesReportNxDomain = acc.allQueriesReportNxDomain := by
  unfold classifyStep
  rw [if_neg (by rw [h]; decide), if_pos h]

lemma foldl_all3_allNx (l : List DohQueryResult) (acc : ClassifyAcc)
    (h : ∀ r ∈ l, r.dnsStatus = some 3) :
    (l.foldl classifyStep acc).allQueriesReportNxDomain = acc.allQueriesReportNxDomain := by
  induction l generalizing acc with
  | nil => rfl
  | cons x xs ih =>
    rw [List.foldl_cons, ih _ (fun r hr => h r (List.mem_cons_of_mem x hr)),
      classifyStep_all3_allNx acc x (h x (List.mem_cons_self x xs))]

lemma classifyStep_allNx_false (acc : ClassifyAcc) (res : DohQueryResult)
    (h : acc.allQueriesReportNxDomain = false) :
    (classifyStep acc res).allQueriesReportNxDomain = false := by
  unfold classifyStep
  split
  · rfl
  · split <;> simp [h]

lemma foldl_allNx_false (l : List DohQueryResult) (acc : ClassifyAcc)
    (h : acc.allQueriesReportNxDomain = false) :
    (l.foldl classifyStep acc).allQueriesReportNxDomain = false := by
  induction l generalizing acc with
  | nil => simpa
  | cons x xs ih => exact ih _ (classifyStep_allNx_false acc x h)

lemma classifyStep_not3_allNx (acc : ClassifyAcc) (res : DohQueryResult)
    (h0 : res.dnsStatus ≠ some 0) (h3 : res.dnsStatus ≠ some 3) :
    (classifyStep acc res).allQueriesReportNxDomain = false := by
  unfold classifyStep
  rw [if_neg h0, if_neg h3]

lemma foldl_mem_not3_allNx (l : List DohQueryResult) (acc : ClassifyAcc)
    (r : DohQueryResult) (hmem : r ∈ l) (h0 : r.dnsStatus ≠ some 0)
    (h3 : r.dnsStatus ≠ some 3) :
    (l.foldl classifyStep acc).allQueriesReportNxDomain = false := by
  induction l generalizing acc with
  | nil => cases hmem
  | cons x xs ih =>
    rcases List.mem_cons.mp hmem with heq | hmem2
    · subst heq
      exact foldl_allNx_false xs _ (classifyStep_not3_allNx acc r h0 h3)
    · exact ih _ hmem2

lemma checkDomain_valid (env : QueryEnv) (domain : String)
    (h : (isValidDomainFormat domain).valid = true) :
    checkDomain env domain = classifyResults (dohResults env domain) := by
  simp [checkDomain, h]

/-! ## Claims about the status classifier -/

/-- C1: for a valid full domain, if at least one of the DoH query results
reports DNS status 0 (NOERROR), `checkDomain` classifies the domain as
`Taken`, whatever the other query results report. -/
theorem c1_noerror_means_taken (env : QueryEnv) (domain : String)
    (hvalid : (isValidDomainFormat domain).valid = true)
    (h : ∃ r ∈ dohResults env domain, r.dnsStatus = some 0) :
    (checkDomain env domain).status = .TAKEN := by
  rw [checkDomain_valid env domain hvalid]
  obtain ⟨r, hmem, h0⟩ := h
  unfold classifyResults
  rw [if_pos]
  apply List.length_pos.mpr
  exact foldl_mem_status0_takenReasons _ _ r hmem h0

def envCFA0 : QueryEnv := fun url =>
  if jsIncludes url "cloudflare" && jsIncludes url "type=A" then
    .response true 200 "OK" (.value (some ⟨some 0, some ["93.184.216.34"]⟩))
  else .response true 200 "OK" (.value (some ⟨some 3, none⟩))

/-- Witness for C1: `foo.com` with Cloudflare's A query reporting status 0
and every other query reporting status 3 is classified `Taken`. -/
theorem c1_noerror_means_taken_witness :
    (isValidDomainFormat "foo.com").valid = true ∧
      (∃ r ∈ dohResults envCFA0 "foo.com", r.dnsStatus = some 0) ∧
      (checkDomain envCFA0 "foo.com").status = .TAKEN :=
  ⟨by decide, by decide,
    c1_noerror_means_taken envCFA0 "foo.com" (by decide) (by decide)⟩

/-- C2: for a valid full domain none of whose query results reports DNS
status 0: if every query result reports DNS status 3 the domain is
classified `Available`; otherwise (some result reports neither 0 nor 3,
i.e. an error without a parsed NXDOMAIN code or an unexpected code) it is
classified `Taken`. -/
theorem c2_no_noerror_classification (env : QueryEnv) (domain : String)
    (hvalid : (isValidDomainFormat domain).valid = true)
    (hno0 : ∀ r ∈ dohResults env domain, r.dnsStatus ≠ some 0) :
    ((∀ r ∈ dohResults env domain, r.dnsStatus = some 3) →
      (checkDomain env domain).status = .AVAILABLE) ∧
    ((∃ r ∈ dohResults env domain, r.dnsStatus ≠ some 3) →
      (checkDomain env domain).status = .TAKEN) := by
  rw [checkDomain_valid env domain hvalid]
  unfold classifyResults
  rw [if_neg (by
    rw [foldl_no0_takenReasons _ _ hno0]
    simp)]
  constructor
  · intro hall3
    rw [if_pos (by rw [foldl_all3_allNx _ _ hall3])]
  · intro hnot3
    obtain ⟨r, hmem, h3⟩ := hnot3
    rw [if_neg (by
      rw [foldl_mem_not3_allNx _ _ r hmem (hno0 r hmem) h3]
      simp)]

def envAll3 : QueryEnv := fun _ => .response true 200 "OK" (.value (some ⟨some 3, none⟩))

/-- Witness for C2: with all four queries reporting NXDOMAIN, `foo.com`
is classified `Available`. -/
theorem c2_no_noerror_classification_witness :
    (isValidDomainFormat "foo.com").valid = true ∧
      (∀ r ∈ dohResults envAll3 "foo.com", r.dnsStatus ≠ some 0) ∧
      (checkDomain envAll3 "foo.com").status = .AVAILABLE :=
  ⟨by decide, by decide,
    (c2_no_noerror_classification envAll3 "foo.com" (by decide) (by decide)).1
      (by decide)⟩

/-- C3: for a full-domain string that fails format validation,
`checkDomain` returns status `Invalid` carrying the validator's reason,
and zero DoH queries are issued. -/
theorem c3_invalid_no_queries (env : QueryEnv) (domain : String)
    (h : (isValidDomainFormat domain).valid = false) :
    checkDomainTraced env domain =
      ({ status := .INVALID, reason := (isValidDomainFormat domain).reason }, 0) := by
  simp [checkDomainTraced, h]

/-- Witness for C3: the domain `-bad.com` (label with a leading hyphen)
is rejected by the validator, `checkDomain` reports `Invalid` with the
validator's message, and no query is issued. -/
theorem c3_invalid_no_queries_witness :
    (isValidDomainFormat "-bad.com").valid = false ∧
      checkDomainTraced envAll3 "-bad.com" =
        ({ status := .INVALID,
           reason := some "Labels cannot start or end with a hyphen." }, 0) :=
  ⟨by decide, by
    rw [c3_invalid_no_queries envAll3 "-bad.com" (by decide)]
    decide⟩

/-- C10: `checkDomain` never throws or rejects: for every environment
behaviour (including network failures, HTTP errors, JSON-parse failures
and `null` bodies), the exception-monad rendering of the function returns
`Except.ok`, so the orchestrator's `.catch` branch (which would produce
`{Invalid, reason: 'Error during check'}`) is unreachable and every task
pushes the `.then` update. -/
theorem c10_checkDomain_never_throws (env : QueryEnv) (item : Combination) :
    checkDomainE env item.fullDomain =
      Except.ok (checkDomain env item.fullDomain) ∧
    taskUpdate env item =
      { baseName := item.baseName, tld := item.tld,
        status := (checkDomain env item.fullDomain).status,
        reason := (checkDomain env item.fullDomain).reason } := by
  have hok : checkDomainE env item.fullDomain =
      Except.ok (checkDomain env item.fullDomain) := by
    simp only [checkDomainE, checkDomain]
    split <;> rfl
  refine ⟨hok, ?_⟩
  unfold taskUpdate
  rw [hok]

/-! ## Claim about the 50,000-combination ceiling -/

lemma crossProduct_go_length (tlds : List String) (l : List String)
    (acc : List Combination) :
    (l.foldl (fun acc base =>
      acc ++ tlds.map (fun tld =>
        ({ baseName := base, tld := tld, fullDomain := base ++ "." ++ tld } :
          Combination))) acc).length = acc.length + l.length * tlds.length := by
  induction l generalizing acc with
  | nil => simp
  | cons x xs ih =>
    rw [List.foldl_cons, ih]
    simp [List.length_append, List.length_map, Nat.succ_mul]
    ring

lemma crossProduct_length (names tlds : List String) :
    (crossProduct names tlds).length = names.length * tlds.length := by
  unfold crossProduct
  rw [crossProduct_go_length]
  simp

/-- C4: when the submitted base names and TLDs are all valid but their
cross product exceeds 50,000 combinations, the submission is rejected
with the "narrow the input" error message, the grid is left empty, and
no check is dispatched (the in-flight set is untouched and all counters,
timer and buffer are cleared). -/
theorem c4_ceiling_rejected (baseNamesInput tldsInput : String) (env : QueryEnv)
    (now : Nat) (prev : AppState)
    (hnames : (parseBaseNames baseNamesInput).all isValidBaseName = true)
    (htlds : (parseTlds tldsInput).all isValidTld = true)
    (hbig : 50000 <
      (parseBaseNames baseNamesInput).length * (parseTlds tldsInput).length) :
    (handleSubmit baseNamesInput tldsInput env now prev).errorMessage =
      some "Generated more than 50,000 domain combinations. Please reduce base names or TLDs." ∧
    (handleSubmit baseNamesInput tldsInput env now prev).gridResults = [] ∧
    (handleSubmit baseNamesInput tldsInput env now prev).inflight = prev.inflight ∧
    (handleSubmit baseNamesInput tldsInput env now prev).isLoading = false ∧
    (handleSubmit baseNamesInput tldsInput env now prev).flushTimer = false ∧
    (handleSubmit baseNamesInput tldsInput env now prev).pendingUpdates = [] ∧
    (handleSubmit baseNamesInput tldsInput env now prev).totalChecks = 0 ∧
    (handleSubmit baseNamesInput tldsInput env now prev).completedChecks = 0 := by
  have hn0 : (parseBaseNames baseNamesInput).length ≠ 0 := by
    intro h
    rw [h, Nat.zero_mul] at hbig
    exact absurd hbig (by decide)
  have ht0 : (parseTlds tldsInput).length ≠ 0 := by
    intro h
    rw [h, Nat.mul_zero] at hbig
    exact absurd hbig (by decide)
  have hinvn : (parseBaseNames baseNamesInput).filter
      (fun name => !isValidBaseName name) = [] := by
    rw [List.filter_eq_nil_iff]
    intro a ha
    have := (List.all_eq_true.mp hnames) a ha
    simp [this]
  have hinvt : (parseTlds tldsInput).filter (fun tld => !isValidTld tld) = [] := by
    rw [List.filter_eq_nil_iff]
    intro a ha
    have := (List.all_eq_true.mp htlds) a ha
    simp [this]
  have hcross : 50000 <
      (crossProduct (parseBaseNames baseNamesInput) (parseTlds tldsInput)).length := by
    rw [crossProduct_length]
    exact hbig
  unfold handleSubmit
  rw [if_neg hn0, if_neg ht0]
  simp only [hinvn, hinvt, List.length_nil, Nat.lt_irrefl, if_false]
  rw [if_pos (by simpa using hcross)]
  simp [clearAsyncOperations]

set_option maxRecDepth 10000

/-! ### A closed over-the-ceiling input for the C4 witness

Evaluating the parsers on a 1000-character literal is out of reach of
kernel reduction, so the witness input is built as 225 three-character
names joined by separators, and the parse result is computed by the
lemmas below instead of by brute force. -/

/-- Lower-case ASCII letters and digits: the characters the generated
input uses (no delimiter, no whitespace, fixed by `toLowerCase`). -/
def goodChar (c : Char) : Bool :=
  (97 ≤ c.toNat && c.toNat ≤ 122) || (48 ≤ c.toNat && c.toNat ≤ 57)

def joinSep (sep : Char) : List (List Char) → List Char
  | [] => []
  | [p] => p
  | p :: ps => p ++ sep :: joinSep sep ps

lemma joinSep_cons (sep : Char) (p : List Char) (ps : List (List Char))
    (h : ps ≠ []) : joinSep sep (p :: ps) = p ++ sep :: joinSep sep ps := by
  cases ps with
  | nil => exact absurd rfl h
  | cons q qs => rfl

lemma joinSep_mem (sep : Char) (pieces : List (List Char)) (c : Char)
    (hc : c ∈ joinSep sep pieces) : c = sep ∨ ∃ p ∈ pieces, c ∈ p := by
  induction pieces with
  | nil => cases hc
  | cons p ps ih =>
    cases ps with
    | nil =>
      right
      exact ⟨p, List.mem_cons_self _ _, hc⟩
    | cons q qs =>
      rw [joinSep_cons _ _ _ (by simp)] at hc
      rcases List.mem_append.mp hc with hp | hrest
      · right
        exact ⟨p, List.mem_cons_self _ _, hp⟩
      · rcases List.mem_cons.mp hrest with hsep | hrec
        · left
          exact hsep
        · rcases ih hrec with hsep | ⟨r, hr, hcr⟩
          · left
            exact hsep
          · right
            exact ⟨r, List.mem_cons_of_mem _ hr, hcr⟩

lemma splitChars_no_sep (sep : Char) (l : List Char)
    (h : ∀ c ∈ l, c ≠ sep) : splitChars sep l = [l] := by
  induction l with
  | nil => rfl
  | cons c cs ih =>
    unfold splitChars
    rw [if_neg (h c (List.mem_cons_self c cs))]
    rw [ih (fun x hx => h x (List.mem_cons_of_mem c hx))]

lemma splitChars_append (sep : Char) (p l : List Char)
    (hp : ∀ c ∈ p, c ≠ sep) :
    splitChars sep (p ++ sep :: l) = p :: splitChars sep l := by
  induction p with
  | nil =>
    show splitChars sep (sep :: l) = [] :: splitChars sep l
    simp [splitChars]
  | cons c p' ih =>
    show splitChars sep (c :: (p' ++ sep :: l)) = (c :: p') :: splitChars sep l
    simp only [splitChars]
    rw [if_neg (hp c (List.mem_cons_self c p'))]
    rw [ih (fun x hx => hp x (List.mem_cons_of_mem c hx))]

lemma splitChars_joinSep (sep : Char) (pieces : List (List Char))
    (h : ∀ p ∈ pieces, ∀ c ∈ p, c ≠ sep) (hne : pieces ≠ []) :
    splitChars sep (joinSep sep pieces) = pieces := by
  induction pieces with
  | nil => exact absurd rfl hne
  | cons p ps ih =>
    cases ps with
    | nil => exact splitChars_no_sep sep p (h p (List.mem_cons_self _ _))
    | cons q qs =>
      rw [joinSep_cons _ _ _ (by simp),
        splitChars_append sep p _ (h p (List.mem_cons_self _ _)),
        ih (fun r hr => h r (List.mem_cons_of_mem _ hr)) (by simp)]

lemma normChars_id (l : List Char) (h : ∀ c ∈ l, isDelimChar c = false) :
    ∀ b, normChars b l = l := by
  induction l with
  | nil => intro b; rfl
  | cons c cs ih =>
    intro b
    unfold normChars
    rw [h c (List.mem_cons_self c cs), if_neg (by decide)]
    rw [ih (fun x hx => h x (List.mem_cons_of_mem c hx))]

lemma dropWhile_nosat (p : Char → Bool) (l : List Char)
    (h : ∀ c ∈ l, p c = false) : List.dropWhile p l = l := by
  cases l with
  | nil => rfl
  | cons c cs =>
    rw [List.dropWhile_cons, h c (List.mem_cons_self c cs)]
    simp

lemma jsTrim_id (l : List Char) (h : ∀ c ∈ l, jsIsWhitespace c = false) :
    jsTrim ⟨l⟩ = ⟨l⟩ := by
  unfold jsTrim
  rw [dropWhile_nosat _ l h,
    dropWhile_nosat _ l.reverse (fun c hc => h c (List.mem_reverse.mp hc)),
    List.reverse_reverse]

lemma toLower_good (c : Char) (h : goodChar c = true) : Char.toLower c = c := by
  simp only [goodChar, Bool.or_eq_true, Bool.and_eq_true, decide_eq_true_eq] at h
  unfold Char.toLower
  rw [if_neg (by omega)]

lemma jsToLower_good (l : List Char) (h : ∀ c ∈ l, goodChar c = true) :
    jsToLower ⟨l⟩ = ⟨l⟩ := by
  unfold jsToLower
  rw [List.map_congr_left (fun c hc => toLower_good c (h c hc))]
  simp

lemma good_not_delim (c : Char) (h : goodChar c = true) : isDelimChar c = false := by
  simp only [goodChar, Bool.or_eq_true, Bool.and_eq_true, decide_eq_true_eq] at h
  simp only [isDelimChar, Bool.or_eq_false_iff, decide_eq_false_iff_not]
  omega

lemma good_not_ws (c : Char) (h : goodChar c = true) : jsIsWhitespace c = false := by
  simp only [goodChar, Bool.or_eq_true, Bool.and_eq_true, decide_eq_true_eq] at h
  simp only [jsIsWhitespace, Bool.or_eq_false_iff, decide_eq_false_iff_not]
  omega

lemma good_ne_char (c : Char) (n : Nat) (h : goodChar c = true)
    (hn : (Char.ofNat n).toNat = n) (hlo : n < 48) : c ≠ Char.ofNat n := by
  simp only [goodChar, Bool.or_eq_true, Bool.and_eq_true, decide_eq_true_eq] at h
  intro he
  rw [he, hn] at h
  omega

lemma dedupSeen_id (l : List String) : ∀ seen : List String, l.Nodup →
    (∀ x ∈ l, seen.contains x = false) → dedupSeen seen l = l := by
  induction l with
  | nil => intro seen _ _; rfl
  | cons x xs ih =>
    intro seen hnd hs
    unfold dedupSeen
    rw [hs x (List.mem_cons_self x xs), if_neg (by decide)]
    rw [ih (seen ++ [x]) (List.Nodup.of_cons hnd)]
    intro y hy
    have hyx : y ≠ x := by
      intro he
      subst he
      exact (List.nodup_cons.mp hnd).1 hy
    have hyseen := hs y (List.mem_cons_of_mem x hy)
    simp only [List.contains, List.elem_eq_mem, decide_eq_false_iff_not]
      at hyseen ⊢
    simp only [List.mem_append, List.mem_singleton, not_or]
    exact ⟨hyseen, hyx⟩

lemma nodup_pairs (c0 : Char) (A : List Char) (h : A.Nodup) :
    (A.flatMap (fun a => A.map (fun b => ([c0, a, b] : List Char)))).Nodup := by
  rw [List.nodup_flatMap]
  constructor
  · intro a _
    apply h.map
    intro b bb hbb
    simpa using hbb
  · refine List.Pairwise.imp ?_ h
    intro a b hab
    intro z hza hzb
    simp only [List.mem_map] at hza hzb
    obtain ⟨x, _, hx⟩ := hza
    obtain ⟨y, _, hy⟩ := hzb
    rw [← hy] at hx
    simp only [List.cons.injEq] at hx
    exact hab hx.2.1

/-- 15 distinct lower-case letters; pairs of them index the generated names. -/
def pairChars : List Char :=
  ['a', 'b', 'c', 'd', 'e', 'f', 'g', 'h', 'i', 'j', 'k', 'l', 'm', 'n', 'o']

def namePieces : List (List Char) :=
  pairChars.flatMap (fun a => pairChars.map (fun b => (['x', a, b] : List Char)))

def tldPieces : List (List Char) :=
  pairChars.flatMap (fun a => pairChars.map (fun b => (['t', a, b] : List Char)))

/-- 225 distinct base names, newline-separated. -/
def bigNames : String := ⟨joinSep (Char.ofNat 10) namePieces⟩

/-- 225 distinct TLDs, comma-separated. -/
def bigTlds : String := ⟨joinSep (Char.ofNat 44) tldPieces⟩

lemma parse_pieces_aux (pieces : List (List Char))
    (hgood : ∀ p ∈ pieces, ∀ c ∈ p, goodChar c = true)
    (hlen : ∀ p ∈ pieces, p ≠ [])
    (hnd : (pieces.map (fun p => (⟨p⟩ : String))).Nodup) :
    dedupKeepFirst
      (((pieces.map (fun p => (⟨p⟩ : String))).map
        (fun d => jsToLower (jsTrim d))).filter (fun d => d.length > 0)) =
      pieces.map (fun p => (⟨p⟩ : String)) := by
  have hmapid : (pieces.map (fun p => (⟨p⟩ : String))).map
      (fun d => jsToLower (jsTrim d)) = pieces.map (fun p => (⟨p⟩ : String)) := by
    rw [List.map_map]
    apply List.map_congr_left
    intro p hp
    show jsToLower (jsTrim ⟨p⟩) = ⟨p⟩
    rw [jsTrim_id p (fun c hc => good_not_ws c (hgood p hp c hc)),
      jsToLower_good p (hgood p hp)]
  rw [hmapid]
  have hfilter : (pieces.map (fun p => (⟨p⟩ : String))).filter
      (fun d => d.length > 0) = pieces.map (fun p => (⟨p⟩ : String)) := by
    rw [List.filter_eq_self]
    intro a ha
    obtain ⟨p, hp, hpa⟩ := List.mem_map.mp ha
    subst hpa
    have : p ≠ [] := hlen p hp
    simp only [gt_iff_lt, decide_eq_true_eq]
    show 0 < (List.length p)
    cases p with
    | nil => exact absurd rfl this
    | cons c cs => simp
  rw [hfilter]
  exact dedupSeen_id _ [] hnd (by intro x _; rfl)

lemma parseBaseNames_bigNames :
    parseBaseNames bigNames = namePieces.map (fun p => (⟨p⟩ : String)) := by
  have hgood : ∀ p ∈ namePieces, ∀ c ∈ p, goodChar c = true := by decide
  have hnodelim : ∀ c ∈ joinSep (Char.ofNat 10) namePieces, isDelimChar c = false := by
    intro c hc
    rcases joinSep_mem _ _ c hc with hsep | ⟨p, hp, hcp⟩
    · subst hsep; decide
    · exact good_not_delim c (hgood p hp c hcp)
  have hsplit : splitChars (Char.ofNat 10) (joinSep (Char.ofNat 10) namePieces) =
      namePieces := by
    apply splitChars_joinSep
    · intro p hp c hc
      exact good_ne_char c 10 (hgood p hp c hc) (by decide) (by decide)
    · decide
  unfold parseBaseNames
  have hnorm : normalizeDelims bigNames = bigNames := by
    show (⟨normChars false bigNames.data⟩ : String) = bigNames
    rw [normChars_id bigNames.data hnodelim false]
  rw [hnorm]
  show dedupKeepFirst
      ((((splitChars (Char.ofNat 10) (joinSep (Char.ofNat 10) namePieces)).map
        (fun l => (⟨l⟩ : String))).map (fun d => jsToLower (jsTrim d))).filter
        (fun d => d.length > 0)) = _
  rw [hsplit]
  apply parse_pieces_aux
  · exact hgood
  · decide
  · apply List.Nodup.map
    · intro p q hpq
      injection hpq
    · exact nodup_pairs 'x' pairChars (by decide)

lemma parseTlds_bigTlds :
    parseTlds bigTlds = tldPieces.map (fun p => (⟨p⟩ : String)) := by
  have hgood : ∀ p ∈ tldPieces, ∀ c ∈ p, goodChar c = true := by decide
  have hsplit : splitChars (Char.ofNat 44) (joinSep (Char.ofNat 44) tldPieces) =
      tldPieces := by
    apply splitChars_joinSep
    · intro p hp c hc
      exact good_ne_char c 44 (hgood p hp c hc) (by decide) (by decide)
    · decide
  unfold parseTlds
  show dedupKeepFirst
      ((((splitChars (Char.ofNat 44) (joinSep (Char.ofNat 44) tldPieces)).map
        (fun l => (⟨l⟩ : String))).map (fun d => jsToLower (jsTrim d))).filter
        (fun d => d.length > 0)) = _
  rw [hsplit]
  apply parse_pieces_aux
  · exact hgood
  · decide
  · apply List.Nodup.map
    · intro p q hpq
      injection hpq
    · exact nodup_pairs 't' pairChars (by decide)

/-- Witness for C4: 225 valid base names and 225 valid TLDs give
50625 > 50000 combinations, and the submission is rejected with the
ceiling error message and an empty grid, dispatching nothing. -/
theorem c4_ceiling_rejected_witness :
    (parseBaseNames bigNames).all isValidBaseName = true ∧
      (parseTlds bigTlds).all isValidTld = true ∧
      50000 < (parseBaseNames bigNames).length * (parseTlds bigTlds).length ∧
      (handleSubmit bigNames bigTlds envAll3 0 initialState).errorMessage =
        some "Generated more than 50,000 domain combinations. Please reduce base names or TLDs." ∧
      (handleSubmit bigNames bigTlds envAll3 0 initialState).gridResults = [] ∧
      (handleSubmit bigNames bigTlds envAll3 0 initialState).inflight = [] :=
  have h1 : (parseBaseNames bigNames).all isValidBaseName = true := by
    rw [parseBaseNames_bigNames]; decide
  have h2 : (parseTlds bigTlds).all isValidTld = true := by
    rw [parseTlds_bigTlds]; decide
  have h3 : 50000 < (parseBaseNames bigNames).length * (parseTlds bigTlds).length := by
    rw [parseBaseNames_bigNames, parseTlds_bigTlds]; decide
  have main := c4_ceiling_rejected bigNames bigTlds envAll3 0 initialState h1 h2 h3
  ⟨h1, h2, h3, main.1, main.2.1, main.2.2.1⟩

/-! ## Claim about the flush of the pending-update buffer -/

lemma buildRec_append (l : List PendingCellUpdate) (u : PendingCellUpdate) :
    buildUpdatesRecord (l ++ [u]) = updRecordStep (buildUpdatesRecord l) u := by
  unfold buildUpdatesRecord
  rw [List.foldl_append, List.foldl_cons, List.foldl_nil]

lemma updStep_eq_none_iff (rec : String → Option (String → Option CellPatch))
    (u : PendingCellUpdate) (b : String) :
    (updRecordStep rec u b = none) ↔ (b ≠ u.baseName ∧ rec b = none) := by
  unfold updRecordStep
  by_cases hb : b = u.baseName
  · rw [if_pos hb]
    simp [hb]
  · rw [if_neg hb]
    simp [hb]

lemma buildRec_none_iff (updates : List PendingCellUpdate) (b : String) :
    buildUpdatesRecord updates b = none ↔ ∀ u ∈ updates, u.baseName ≠ b := by
  induction updates using List.reverseRecOn with
  | nil => simp [buildUpdatesRecord]
  | append_singleton l u ih =>
    rw [buildRec_append, updStep_eq_none_iff, ih]
    constructor
    · intro h v hv
      rcases List.mem_append.mp hv with hl | hu
      · exact h.2 v hl
      · rw [List.mem_singleton.mp hu]
        exact fun he => h.1 he.symm
    · intro h
      refine ⟨fun he => h u (List.mem_append_right _ (List.mem_singleton_self u)) he.symm, ?_⟩
      intro v hv
      exact h v (List.mem_append_left _ hv)

lemma lastUpdateFor_append_singleton (l : List PendingCellUpdate)
    (u : PendingCellUpdate) (b t : String) :
    lastUpdateFor (l ++ [u]) b t =
      if u.baseName = b ∧ u.tld = t then some u else lastUpdateFor l b t := by
  unfold lastUpdateFor
  rw [List.filter_append]
  by_cases hu : u.baseName = b ∧ u.tld = t
  · rw [if_pos hu]
    have hf : List.filter (fun v => v.baseName = b && v.tld = t) [u] = [u] := by
      simp [hu.1, hu.2]
    rw [hf, List.getLast?_concat]
  · rw [if_neg hu]
    have hf : List.filter (fun v => v.baseName = b && v.tld = t) [u] = [] := by
      simp only [List.filter_cons, List.filter_nil]
      rw [if_neg (by simpa [Decidable.not_and_iff_or_not] using hu)]
    rw [hf, List.append_nil]

lemma recLookup_updStep (rec : String → Option (String → Option CellPatch))
    (u : PendingCellUpdate) (b t : String) :
    recLookup (updRecordStep rec u) b t =
      if b = u.baseName then
        (if t = u.tld then some ⟨u.status, u.reason⟩ else recLookup rec u.baseName t)
      else recLookup rec b t := by
  unfold recLookup updRecordStep
  by_cases hb : b = u.baseName
  · rw [if_pos hb, if_pos hb]
    cases hr : rec u.baseName with
    | none => by_cases ht : t = u.tld <;> simp [ht]
    | some inner => by_cases ht : t = u.tld <;> simp [ht]
  · rw [if_neg hb, if_neg hb]

lemma recLookup_buildRec (updates : List PendingCellUpdate) (b t : String) :
    recLookup (buildUpdatesRecord updates) b t =
      (lastUpdateFor updates b t).map (fun u => (⟨u.status, u.reason⟩ : CellPatch)) := by
  induction updates using List.reverseRecOn with
  | nil => rfl
  | append_singleton l u ih =>
    rw [buildRec_append, recLookup_updStep, lastUpdateFor_append_singleton]
    by_cases hb : b = u.baseName
    · rw [if_pos hb]
      by_cases ht : t = u.tld
      · rw [if_pos ht, if_pos ⟨hb.symm, ht.symm⟩]
        rfl
      · rw [if_neg ht, if_neg (fun h => ht h.2.symm), ← hb, ih]
    · rw [if_neg hb, if_neg (fun h => hb h.1.symm), ih]

lemma applyUpdates_getElem (updates : List PendingCellUpdate)
    (grid : List ProcessedBaseNameResult) (i : Nat) (row : ProcessedBaseNameResult)
    (hrow : grid[i]? = some row) :
    (applyUpdates updates grid)[i]? =
      some (applyRowUpdates (buildUpdatesRecord updates) row) := by
  unfold applyUpdates
  rw [List.getElem?_map, hrow]
  rfl

lemma applyRowUpdates_cell (rec : String → Option (String → Option CellPatch))
    (row : ProcessedBaseNameResult) (j : Nat) (cell : ProcessedTldResult)
    (hcell : row.tldResults[j]? = some cell) :
    (applyRowUpdates rec row).tldResults[j]? =
      some (match recLookup rec row.baseName cell.tld with
        | some p => { cell with status := p.status, reason := p.reason }
        | none => cell) := by
  have hlookup : ∀ inner, rec row.baseName = some inner →
      recLookup rec row.baseName cell.tld = inner cell.tld := by
    intro inner hrec
    unfold recLookup
    rw [hrec]
  unfold applyRowUpdates
  cases hrec : rec row.baseName with
  | none =>
    have : recLookup rec row.baseName cell.tld = none := by
      unfold recLookup
      rw [hrec]
    rw [this, hcell]
  | some inner =>
    rw [hlookup inner hrec]
    simp only
    by_cases hch : row.tldResults.any (fun c => (inner c.tld).isSome)
    · rw [if_pos hch]
      simp only [List.getElem?_map, hcell, Option.map_some']
    · rw [if_neg hch]
      have hnone : inner cell.tld = none := by
        rw [List.any_eq_true] at hch
        push_neg at hch
        have hmem : cell ∈ row.tldResults := by
          obtain ⟨hj, heq⟩ := List.getElem?_eq_some_iff.mp hcell
          exact heq ▸ List.getElem_mem hj
        have := hch cell hmem
        simpa using this
      rw [hcell, hnone]

/-- C8: one flush applies the buffered updates with last-write-wins per
cell, and leaves rows with no buffered update untouched.  For a grid row
at position `i`: if no buffered update names its base name, the flushed
grid holds the very same row (the source returns the original row object,
rendered here as equality); and for each of its cells, if at least one
update is buffered for that `(baseName, tld)` cell, the flushed cell
carries the status and reason of the most recently enqueued such update. -/
theorem c8_flush_last_write_wins (updates : List PendingCellUpdate)
    (grid : List ProcessedBaseNameResult) (i : Nat)
    (row : ProcessedBaseNameResult) (hrow : grid[i]? = some row) :
    ((∀ u ∈ updates, u.baseName ≠ row.baseName) →
      (applyUpdates updates grid)[i]? = some row) ∧
    (∀ (j : Nat) (cell : ProcessedTldResult), row.tldResults[j]? = some cell →
      ∀ u : PendingCellUpdate,
        lastUpdateFor updates row.baseName cell.tld = some u →
        ∃ row2, (applyUpdates updates grid)[i]? = some row2 ∧
          row2.tldResults[j]? =
            some { cell with status := u.status, reason := u.reason }) := by
  constructor
  · intro hnone
    rw [applyUpdates_getElem updates grid i row hrow]
    have hrec : buildUpdatesRecord updates row.baseName = none :=
      (buildRec_none_iff updates row.baseName).mpr hnone
    unfold applyRowUpdates
    rw [hrec]
  · intro j cell hcell u hu
    refine ⟨applyRowUpdates (buildUpdatesRecord updates) row,
      applyUpdates_getElem updates grid i row hrow, ?_⟩
    rw [applyRowUpdates_cell _ row j cell hcell]
    rw [recLookup_buildRec updates row.baseName cell.tld, hu]
    rfl

def c8row0 : ProcessedBaseNameResult :=
  { baseName := "zeta", tldResults := [⟨"com", .CHECKING, none, 0⟩] }

def c8row1 : ProcessedBaseNameResult :=
  { baseName := "alpha", tldResults := [⟨"com", .CHECKING, none, 1⟩] }

def c8updates : List PendingCellUpdate :=
  [⟨"alpha", "com", .AVAILABLE, some "first"⟩,
   ⟨"alpha", "com", .TAKEN, some "second"⟩]

/-- Witness for C8: with two buffered updates for the same cell, the
untouched row is returned unchanged and the touched cell carries the
second (most recent) update. -/
theorem c8_flush_last_write_wins_witness :
    (applyUpdates c8updates [c8row0, c8row1])[0]? = some c8row0 ∧
      ∃ row2, (applyUpdates c8updates [c8row0, c8row1])[1]? = some row2 ∧
        row2.tldResults[0]? = some ⟨"com", .TAKEN, some "second", 1⟩ :=
  ⟨(c8_flush_last_write_wins c8updates [c8row0, c8row1] 0 c8row0 (by decide)).1
      (by decide),
    (c8_flush_last_write_wins c8updates [c8row0, c8row1] 1 c8row1 (by decide)).2
      0 ⟨"com", .CHECKING, none, 1⟩ (by decide)
      ⟨"alpha", "com", .TAKEN, some "second"⟩ (by decide)⟩

/-! ## Claim about sorting by a TLD column -/

instance (key : String) : IsTotal ProcessedBaseNameResult (rankRel key) :=
  ⟨fun a b => Nat.le_total (rowRank key a) (rowRank key b)⟩

instance (key : String) : IsTrans ProcessedBaseNameResult (rankRel key) :=
  ⟨fun _ _ _ hab hbc => Nat.le_trans hab hbc⟩

lemma rowRank_le_five (key : String) (row : ProcessedBaseNameResult) :
    rowRank key row ≤ 5 := by
  unfold rowRank
  cases h : row.tldResults.find? (fun r => r.tld = key) with
  | none => simp
  | some cell =>
    obtain ⟨t2, st, r2, id2⟩ := cell
    cases st <;> simp [statusOrder]

lemma rowRank_eq_five_iff (key : String) (row : ProcessedBaseNameResult) :
    rowRank key row = 5 ↔ row.tldResults.find? (fun r => r.tld = key) = none := by
  unfold rowRank
  cases h : row.tldResults.find? (fun r => r.tld = key) with
  | none => simp
  | some cell =>
    simp only [reduceCtorEq, iff_false]
    obtain ⟨t2, st, r2, id2⟩ := cell
    cases st <;> simp [statusOrder]

def c9rowA : ProcessedBaseNameResult :=
  { baseName := "alpha", tldResults := [⟨"com", .AVAILABLE, none, 0⟩] }

def c9rowB : ProcessedBaseNameResult := { baseName := "beta", tldResults := [] }

/-- Counterexample to C9 as stated: after a repeated sort request on the
TLD column `com` (which toggles the direction to descending), the row
missing a `com` cell sorts FIRST, not last, even though another row is
present. -/
theorem c9_missing_first_when_descending :
    handleSortRequest "com" (handleSortRequest "com" none) =
      some { key := "com", direction := .descending } ∧
    sortedResults (handleSortRequest "com" (handleSortRequest "com" none))
      [c9rowA, c9rowB] = [c9rowB, c9rowA] ∧
    c9rowB.tldResults.find? (fun r => r.tld = "com") = none ∧
    c9rowA.tldResults.find? (fun r => r.tld = "com") ≠ none := by
  refine ⟨rfl, ?_, rfl, by decide⟩
  rfl

/-- C9 (amended): when sorting by a TLD column, rows are ordered by the
status rank Available < Checking < Idle < Invalid < Taken; the first sort
request on a key sorts ascending and a repeated request on the same key
toggles to descending; rows missing a cell for that TLD carry the maximal
rank, so they sort last in the ascending order, while the descending
order is the exact reverse of the ascending order (so there they sort
first — this is what the counterexample forces to be amended). -/
theorem c9_sort_by_tld_amended (key : String) (rows : List ProcessedBaseNameResult)
    (hkey : key ≠ "baseName") :
    (∀ k, handleSortRequest k none = some { key := k, direction := .ascending }) ∧
    (∀ k, handleSortRequest k (some { key := k, direction := .ascending }) =
      some { key := k, direction := .descending }) ∧
    List.Sorted (rankRel key)
      (sortedResults (some { key := key, direction := .ascending }) rows) ∧
    sortedResults (some { key := key, direction := .descending }) rows =
      (sortedResults (some { key := key, direction := .ascending }) rows).reverse ∧
    (∀ (i j : Nat) (a b : ProcessedBaseNameResult), i < j →
      (sortedResults (some { key := key, direction := .ascending }) rows)[i]? = some a →
      (sortedResults (some { key := key, direction := .ascending }) rows)[j]? = some b →
      a.tldResults.find? (fun r => r.tld = key) = none →
      b.tldResults.find? (fun r => r.tld = key) = none) := by
  have hasc : sortedResults (some { key := key, direction := .ascending }) rows =
      List.insertionSort (rankRel key) rows := by
    simp [sortedResults, hkey]
  refine ⟨fun k => rfl, ?_, ?_, ?_, ?_⟩
  · intro k
    unfold handleSortRequest
    simp
  · rw [hasc]
    exact List.sorted_insertionSort (rankRel key) rows
  · simp [sortedResults, hkey]
  · intro i j a b hij ha hb hmissa
    have hsorted : List.Sorted (rankRel key)
        (sortedResults (some { key := key, direction := .ascending }) rows) := by
      rw [hasc]
      exact List.sorted_insertionSort (rankRel key) rows
    obtain ⟨hi, hia⟩ := List.getElem?_eq_some_iff.mp ha
    obtain ⟨hj, hjb⟩ := List.getElem?_eq_some_iff.mp hb
    have hrel := (List.pairwise_iff_getElem.mp hsorted) i j hi hj hij
    rw [hia, hjb] at hrel
    have h5a : rowRank key a = 5 := (rowRank_eq_five_iff key a).mpr hmissa
    have h5b : rowRank key b = 5 :=
      Nat.le_antisymm (rowRank_le_five key b) (h5a ▸ hrel)
    exact (rowRank_eq_five_iff key b).mp h5b

/-- Witness for the amended C9 at a concrete key and row list. -/
theorem c9_sort_by_tld_amended_witness :
    ("com" : String) ≠ "baseName" ∧
      List.Sorted (rankRel "com")
        (sortedResults (some { key := "com", direction := .ascending })
          [c9rowB, c9rowA]) ∧
      sortedResults (some { key := "com", direction := .ascending })
        [c9rowB, c9rowA] = [c9rowA, c9rowB] :=
  ⟨by decide,
    (c9_sort_by_tld_amended "com" [c9rowB, c9rowA] (by decide)).2.2.1,
    by rfl⟩

/-! ## Claims about the orchestration state machine (C5, C6, C7) -/

lemma flushState_pendingUpdates (s : AppState) : (flushState s).pendingUpdates = [] := by
  unfold flushState
  split
  · next h => exact List.length_eq_zero.mp h
  · rfl

lemma flushState_flushTimer (s : AppState) : (flushState s).flushTimer = s.flushTimer := by
  unfold flushState
  split <;> rfl

lemma flushState_startTime (s : AppState) : (flushState s).startTime = s.startTime := by
  unfold flushState
  split <;> rfl

lemma flushState_completedChecks (s : AppState) :
    (flushState s).completedChecks = s.completedChecks := by
  unfold flushState
  split <;> rfl

lemma flushState_totalChecks (s : AppState) :
    (flushState s).totalChecks = s.totalChecks := by
  unfold flushState
  split <;> rfl

lemma flushState_inflight (s : AppState) : (flushState s).inflight = s.inflight := by
  unfold flushState
  split <;> rfl

/-- C7: when a settlement brings `completedChecks` up to `totalChecks`
(the last check of the run), the resulting state has the flush timer
stopped, the pending-update buffer drained by a final flush, the loading
flag cleared, and the elapsed wall-clock time since submission recorded. -/
theorem c7_terminal_completion (s : AppState) (i now t0 : Nat)
    (hi : i < s.inflight.length)
    (hlast : s.completedChecks + 1 = s.totalChecks)
    (hstart : s.startTime = some t0) :
    (stepSettle i now s).flushTimer = false ∧
    (stepSettle i now s).pendingUpdates = [] ∧
    (stepSettle i now s).isLoading = false ∧
    (stepSettle i now s).elapsedMillis = some (now - t0) := by
  unfold stepSettle
  rw [List.getElem?_eq_getElem hi]
  simp only
  rw [if_pos hlast]
  refine ⟨?_, ?_, rfl, ?_⟩
  · rw [flushState_flushTimer]
  · rw [flushState_pendingUpdates]
  · rw [flushState_startTime]
    simp only [hstart]

def c7state : AppState :=
  { gridResults := [], parsedTldsForTable := ["co"], isLoading := true,
    errorMessage := none, startTime := some 5, elapsedMillis := none,
    sortConfig := none, pendingUpdates := [], flushTimer := true,
    completedChecks := 0, totalChecks := 1,
    inflight := [⟨"ab", "co", .TAKEN, none⟩] }

/-- Witness for C7 at a concrete one-check state. -/
theorem c7_terminal_completion_witness :
    0 < c7state.inflight.length ∧
      c7state.completedChecks + 1 = c7state.totalChecks ∧
      c7state.startTime = some 5 ∧
      (stepSettle 0 25 c7state).flushTimer = false ∧
      (stepSettle 0 25 c7state).pendingUpdates = [] ∧
      (stepSettle 0 25 c7state).isLoading = false ∧
      (stepSettle 0 25 c7state).elapsedMillis = some 20 :=
  have h := c7_terminal_completion c7state 0 25 5 (by decide) (by decide) (by decide)
  ⟨by decide, by decide, by decide, h.1, h.2.1, h.2.2.1, h.2.2.2⟩

/-- The single-run progress invariant: the settled and the still
in-flight checks together never exceed the run's total. -/
def ProgressInv (s : AppState) : Prop :=
  s.completedChecks + s.inflight.length ≤ s.totalChecks

lemma progressInv_submit_initial (b t : String) (env : QueryEnv) (now : Nat) :
    ProgressInv (handleSubmit b t env now initialState) := by
  unfold ProgressInv
  simp only [handleSubmit, clearAsyncOperations, initialState]
  split_ifs <;> simp

lemma progressInv_settle (s : AppState) (i now : Nat) (h : ProgressInv s) :
    ProgressInv (stepSettle i now s) := by
  unfold stepSettle
  cases htask : s.inflight[i]? with
  | none => exact h
  | some task =>
    have hi : i < s.inflight.length := by
      by_contra hge
      rw [List.getElem?_eq_none (Nat.le_of_not_lt hge)] at htask
      cases htask
    have hlen : (s.inflight.eraseIdx i).length = s.inflight.length - 1 := by
      rw [List.length_eraseIdx]
      simp [hi]
    simp only
    split
    · unfold ProgressInv at h ⊢
      rw [flushState_completedChecks, flushState_totalChecks, flushState_inflight]
      simp only [hlen]
      omega
    · unfold ProgressInv at h ⊢
      simp only [hlen]
      omega

lemma progressInv_tick (s : AppState) (h : ProgressInv s) :
    ProgressInv (stepTick s) := by
  unfold stepTick
  split
  · unfold ProgressInv at h ⊢
    rw [flushState_completedChecks, flushState_totalChecks, flushState_inflight]
    exact h
  · exact h

lemma progressInv_scheduler_run (evs : List Ev) : ∀ s : AppState, ProgressInv s →
    (∀ e ∈ evs, e.isSchedulerEvent = true) → ProgressInv (runEvents s evs) := by
  induction evs with
  | nil => intro s h _; exact h
  | cons e es ih =>
    intro s h hevs
    have hstep : ProgressInv (step s e) := by
      cases e with
      | submit b t env now =>
        exact absurd (hevs _ (List.mem_cons_self _ _)) (by simp [Ev.isSchedulerEvent])
      | clear =>
        exact absurd (hevs _ (List.mem_cons_self _ _)) (by simp [Ev.isSchedulerEvent])
      | settle i now => exact progressInv_settle s i now h
      | tick => exact progressInv_tick s h
    exact ih (step s e) hstep (fun x hx => hevs x (List.mem_cons_of_mem e hx))

/-- C6 (amended): within a single run — a submission from the pristine
state followed by any sequence of settlements and flush ticks —
`completedChecks` never exceeds `totalChecks`.  (Across runs the bound
fails: settlements of a superseded run's checks are counted into the
current run's counters, see the counterexample.) -/
theorem c6_completed_le_total_single_run (b t : String) (env : QueryEnv)
    (now : Nat) (evs : List Ev)
    (hevs : ∀ e ∈ evs, e.isSchedulerEvent = true) :
    (runEvents (step initialState (Ev.submit b t env now)) evs).completedChecks ≤
      (runEvents (step initialState (Ev.submit b t env now)) evs).totalChecks := by
  have h := progressInv_scheduler_run evs (step initialState (Ev.submit b t env now))
    (progressInv_submit_initial b t env now) hevs
  unfold ProgressInv at h
  omega

/-- Witness for the amended C6: one submission and one settlement. -/
theorem c6_completed_le_total_single_run_witness :
    (∀ e ∈ [Ev.settle 0 7], e.isSchedulerEvent = true) ∧
      (runEvents (step initialState (Ev.submit "ab" "co" envAll3 0))
          [Ev.settle 0 7]).completedChecks ≤
        (runEvents (step initialState (Ev.submit "ab" "co" envAll3 0))
          [Ev.settle 0 7]).totalChecks :=
  ⟨by decide,
    c6_completed_le_total_single_run "ab" "co" envAll3 0 [Ev.settle 0 7] (by decide)⟩

/-- The event trace refuting C5 and C6 as stated: a run is started, a
fresh submission supersedes it, and then checks settle.  The first
settlement is necessarily of the superseded run's check (the new run's
own check is still in flight afterwards). -/
def staleTrace : List Ev :=
  [Ev.submit "ab" "co" envAll3 100, Ev.submit "ab" "co" envAll3 200,
   Ev.settle 0 300, Ev.settle 0 400]

/-- Counterexample to C6 as stated: after the second run (1 combination)
both the superseded run's check and the new run's check settle, and
`completedChecks` (2) exceeds `totalChecks` (1). -/
theorem c6_counterexample_stale_settlements :
    (runEvents initialState staleTrace).completedChecks = 2 ∧
    (runEvents initialState staleTrace).totalChecks = 1 := by
  constructor <;> rfl

def staleTraceShort : List Ev :=
  [Ev.submit "ab" "co" envAll3 100, Ev.submit "ab" "co" envAll3 200,
   Ev.settle 0 300]

/-- Counterexample to C5 as stated: after a fresh submission (totalChecks
= 1) a single settlement — of the superseded run's in-flight check, since
the new run's own check is still in flight afterwards (`inflight.length =
1`) — is counted into the new run's `completedChecks` (which reaches
`totalChecks`, ending the run: `isLoading = false`) and its result is
flushed into the new run's grid cell.  The previous run's late result is
applied, not discarded. -/
theorem c5_counterexample_stale_applied :
    (runEvents initialState staleTraceShort).completedChecks = 1 ∧
    (runEvents initialState staleTraceShort).totalChecks = 1 ∧
    (runEvents initialState staleTraceShort).inflight.length = 1 ∧
    (runEvents initialState staleTraceShort).isLoading = false ∧
    ((runEvents initialState staleTraceShort).gridResults.head?.bind
      (fun r => r.tldResults.head?)).map (fun c => c.status) =
      some DomainStatus.AVAILABLE := by
  refine ⟨rfl, rfl, rfl, rfl, ?_⟩
  rfl

/-- C5 (amended): a fresh submission (or an explicit clear) stops the
flush timer and discards the pending updates and progress counters
present at that moment; but a still-in-flight check of the previous run
that settles afterwards is enqueued into the current pending-update
buffer and counted into the current `completedChecks` — it is not
discarded (the counterexample forces this last part). -/
theorem c5_cancellation_amended (prev : AppState) (b t : String) (env : QueryEnv)
    (now : Nat) :
    (handleSubmit b t env now prev).pendingUpdates = [] ∧
    (handleSubmit b t env now prev).completedChecks = 0 ∧
    (handleClear prev).flushTimer = false ∧
    (handleClear prev).pendingUpdates = [] ∧
    (handleClear prev).completedChecks = 0 ∧
    (handleClear prev).totalChecks = 0 ∧
    (handleClear prev).inflight = prev.inflight ∧
    (∀ (i now2 : Nat) (task : PendingCellUpdate), prev.inflight[i]? = some task →
      (stepSettle i now2 prev).completedChecks = prev.completedChecks + 1) := by
  refine ⟨?_, ?_, rfl, rfl, rfl, rfl, rfl, ?_⟩
  · simp only [handleSubmit, clearAsyncOperations]
    split_ifs <;> rfl
  · simp only [handleSubmit, clearAsyncOperations]
    split_ifs <;> rfl
  · intro i now2 task htask
    unfold stepSettle
    rw [htask]
    simp only
    split
    · rw [flushState_completedChecks]
    · rfl

def c5prevState : AppState :=
  { gridResults := [], parsedTldsForTable := [], isLoading := true,
    errorMessage := none, startTime := some 1, elapsedMillis := none,
    sortConfig := none, pendingUpdates := [⟨"ab", "co", .TAKEN, none⟩],
    flushTimer := true, completedChecks := 3, totalChecks := 9,
    inflight := [⟨"cd", "net", .AVAILABLE, none⟩] }

/-- Witness for the amended C5 at a concrete previous-run state. -/
theorem c5_cancellation_amended_witness :
    (handleSubmit "zz" "io" envAll3 50 c5prevState).pendingUpdates = [] ∧
      (handleClear c5prevState).inflight = c5prevState.inflight ∧
      c5prevState.inflight[0]? = some ⟨"cd", "net", .AVAILABLE, none⟩ ∧
      (stepSettle 0 60 c5prevState).completedChecks = 4 :=
  have h := c5_cancellation_amended c5prevState "zz" "io" envAll3 50
  ⟨h.1, h.2.2.2.2.2.2.1, by decide,
    h.2.2.2.2.2.2.2 0 60 ⟨"cd", "net", .AVAILABLE, none⟩ (by decide)⟩

end DomainChecker
